import Mathlib

/-!
Shallow embedding of the mcm modpack manager core (version model, matchers,
serialization, metadata cache policy, resolver merge) together with proofs
checking the natural-language specification against it.

Conventions of the embedding:
- Python `int` values appearing here are non-negative version tokens and
  timestamps; they are modelled as `Nat`.
- Python `datetime` values are modelled as `Nat` (seconds); only ordering and
  subtraction of ages matter to the embedded code.
- Python truthiness is modelled explicitly where the source relies on it
  (notably `Ver.__lt__`, which can return a non-empty string).
- Fallible code returns `Option`/`Except`; a `none`/`.error` models a raised
  exception.
-/

namespace Mcm

/-- A version token, `int|str` in the source (`mcm/common.py`): `maybeint`
and `strip_mcver` produce either a parsed integer or a lowercase string run. -/
inductive Tok where
  | num (n : Nat)
  | str (s : String)
deriving DecidableEq

/-- Python `str()` of a token. -/
def Tok.pyStr : Tok → String
  | .num n => toString n
  | .str s => s

/-- ASCII lowercasing of one character. -/
def charToLower (c : Char) : Char :=
  if 65 ≤ c.toNat && c.toNat ≤ 90 then Char.ofNat (c.toNat + 32) else c

/-- ASCII uppercasing of one character. -/
def charToUpper (c : Char) : Char :=
  if 97 ≤ c.toNat && c.toNat ≤ 122 then Char.ofNat (c.toNat - 32) else c

/-- Python `str.lower` (ASCII range; all inputs under test are ASCII). -/
def pyToLower (s : String) : String := String.mk (s.data.map charToLower)

/-- Python `str.upper` (ASCII range). -/
def pyToUpper (s : String) : String := String.mk (s.data.map charToUpper)

/-- Split a character list at every occurrence of `sep`. -/
def splitCharList (sep : Char) : List Char → List (List Char)
  | [] => [[]]
  | d :: ds =>
    match splitCharList sep ds with
    | [] => [[d]]
    | h :: t => if d = sep then [] :: h :: t else (d :: h) :: t

/-- Python `s.split(sep)` for a one-character separator. -/
def pySplit (s : String) (sep : Char) : List String :=
  (splitCharList sep s.data).map String.mk

/-- Split a character list at the first occurrence of `sep`; when `sep` does
not occur the second component is empty. -/
def partitionCharList (sep : Char) : List Char → List Char × List Char
  | [] => ([], [])
  | d :: ds =>
    if d = sep then ([], ds)
    else
      match partitionCharList sep ds with
      | (a, b) => (d :: a, b)

/-- Python `s.partition(sep)` projected to (before, after) for a
one-character separator; when `sep` is absent, `after` is the empty string. -/
def pyPartition (s : String) (sep : Char) : String × String :=
  match partitionCharList sep s.data with
  | (a, b) => (String.mk a, String.mk b)

/-- Python `sep in s` for a one-character pattern. -/
def pyContainsChar (s : String) (sep : Char) : Bool :=
  s.data.any (fun d => d = sep)

/-- Release maturity, `VerType` in `mcm/common.py` (int enum RELEASE=3,
BETA=2, ALPHA=1). -/
inductive VerType where
  | RELEASE
  | BETA
  | ALPHA
deriving DecidableEq

/-- Integer value of the `VerType` int enum. -/
def VerType.toInt : VerType → Nat
  | .RELEASE => 3
  | .BETA => 2
  | .ALPHA => 1

/-- Lowercased enum member name, `VerType.serialize` in `mcm/common.py`. -/
def VerType.serialize : VerType → String
  | .RELEASE => "release"
  | .BETA => "beta"
  | .ALPHA => "alpha"

/-- The string branch of `VerType.deserialize` in `mcm/common.py`
(`match (t or '').lower()`); unknown strings raise `ValueError`, modelled
as `none`. -/
def VerType.deserialize (t : String) : Option VerType :=
  match pyToLower t with
  | "release" | "r" | "" => some .RELEASE
  | "alpha" | "a" => some .ALPHA
  | "beta" | "b" => some .BETA
  | _ => none

/-- `Ver` in `mcm/common.py`: a tuple of int/str tokens plus a maturity.
Dataclass equality is field-wise equality. -/
structure Ver where
  version : List Tok
  type : VerType := .RELEASE
deriving DecidableEq

/-- A Python value that is either a `bool` or a `str`; `Ver.__lt__` in the
source can return either (its final lines return an f-string). -/
inductive PyBoolRet where
  | bool (b : Bool)
  | strval (s : String)
deriving DecidableEq

/-- Python truthiness of a bool-or-string value: a string is truthy iff
non-empty. -/
def PyBoolRet.truthy : PyBoolRet → Bool
  | .bool b => b
  | .strval s => !s.isEmpty

/-- Lexicographic comparison of code-point lists. -/
def charListLt : List Char → List Char → Bool
  | [], [] => false
  | [], _ :: _ => true
  | _ :: _, [] => false
  | c :: cs, d :: ds =>
    if c.toNat < d.toNat then true
    else if d.toNat < c.toNat then false
    else charListLt cs ds

/-- Python string `<`: lexicographic comparison by code points. -/
def pyStrLt (s t : String) : Bool := charListLt s.data t.data

/-- The ASCII apostrophe used by Python `repr` of a string. -/
def pyQuoteChar : Char := Char.ofNat 39

/-- Python `repr` of a token (ints bare, strings quoted; escapes are not
needed for the tokens the tokenizers produce). -/
def Tok.pyRepr : Tok → String
  | .num n => toString n
  | .str s => String.singleton pyQuoteChar ++ s ++ String.singleton pyQuoteChar

/-- Python `repr` of a tuple of tokens (one-element tuples get a trailing
comma). -/
def tuplePyRepr (ts : List Tok) : String :=
  "(" ++ String.intercalate ", " (ts.map Tok.pyRepr) ++
    (if ts.length == 1 then ",)" else ")")

/-- Python `repr` of a `VerType` enum member. -/
def VerType.pyRepr : VerType → String
  | .RELEASE => "<VerType.RELEASE: 3>"
  | .BETA => "<VerType.BETA: 2>"
  | .ALPHA => "<VerType.ALPHA: 1>"

/-- The string that the final lines of `Ver.__lt__` build (they are a
copy of the body of `Ver.__repr__`, `mcm/common.py` lines 325-326). -/
def Ver.reprStr (v : Ver) : String :=
  if v.type = .RELEASE then "Ver(" ++ tuplePyRepr v.version ++ ")"
  else "Ver(" ++ tuplePyRepr v.version ++ ", " ++ v.type.pyRepr ++ ")"

/-- The `zip_longest` loop of `Ver.__lt__` (`mcm/common.py` lines 315-324).
`some b` models a `return b` from inside the loop; `none` means the loop
ran out of tokens without returning.  The match arms follow the source
order: (None, _), (_, None), (int(), int()), ('a' | 'b', int()),
(int(), 'a' | 'b'), catch-all string comparison. -/
def verLtLoop : List Tok → List Tok → Option Bool
  | [], [] => none
  | [], _ :: _ => some false
  | _ :: _, [] => some true
  | x :: xs, y :: ys =>
    match x, y with
    | .num m, .num n =>
      if m < n then some true
      else if n < m then some false
      else verLtLoop xs ys
    | .str s, .num n =>
      if s = "a" || s = "b" then some true
      else some (pyStrLt s (toString n))
    | .num m, .str s =>
      if s = "a" || s = "b" then some false
      else some (pyStrLt (toString m) s)
    | .str s, .str t => some (pyStrLt s t)

/-- `Ver.__lt__` (`mcm/common.py` lines 313-326): the loop may return a
bool; when it falls through (all positions equal integers), the method
returns a *string* (a copy-paste of `__repr__`), not a bool. -/
def Ver.ltRaw (v w : Ver) : PyBoolRet :=
  match verLtLoop v.version w.version with
  | some b => .bool b
  | none => .strval (Ver.reprStr v)

/-- Truthiness of `v < w`, which is what every boolean context
(`if`, `sorted`, `all`) observes. -/
def Ver.ltT (v w : Ver) : Bool := (Ver.ltRaw v w).truthy

/-- `v >= w` as derived by `functools.total_ordering` from `__lt__`:
`not self.__lt__(other)` under truthiness. -/
def Ver.geT (v w : Ver) : Bool := !(Ver.ltT v w)

/-- `v <= w` as derived by `total_ordering`: `self.__lt__(other) or
self == other` under truthiness. -/
def Ver.leT (v w : Ver) : Bool := Ver.ltT v w || (v == w)

/-- `v > w` as derived by `total_ordering`: `not self.__lt__(other) and
self != other` under truthiness. -/
def Ver.gtT (v w : Ver) : Bool := !(Ver.ltT v w) && (v != w)

/-- `McVer` in `mcm/common.py`: game version (major, minor, patch, optional
suffix, optional snapshot label). -/
structure McVer where
  major : Nat
  minor : Nat
  patch : Nat
  suffix : String := ""
  snapshot : String := ""
deriving DecidableEq

/-- The fourth component of `McVer.cmp`: `self.suffix or 'release'`. -/
def McVer.suffixKey (m : McVer) : String :=
  if m.suffix = "" then "release" else m.suffix

/-- The fifth component of `McVer.cmp`: `self.snapshot or 'zzzzzz'`. -/
def McVer.snapshotKey (m : McVer) : String :=
  if m.snapshot = "" then "zzzzzz" else m.snapshot

/-- `McVer.__lt__` (`mcm/common.py` line 202-204): lexicographic comparison
of the `cmp` tuples `(major, minor, patch, suffix or 'release',
snapshot or 'zzzzzz')`, as Python compares tuples. -/
def McVer.ltB (a b : McVer) : Bool :=
  if a.major ≠ b.major then decide (a.major < b.major)
  else if a.minor ≠ b.minor then decide (a.minor < b.minor)
  else if a.patch ≠ b.patch then decide (a.patch < b.patch)
  else if a.suffixKey ≠ b.suffixKey then pyStrLt a.suffixKey b.suffixKey
  else pyStrLt a.snapshotKey b.snapshotKey

/-- `a >= b` on `McVer` as derived by `total_ordering` from the (boolean)
`__lt__`: `not (a < b)`. -/
def McVer.geB (a b : McVer) : Bool := !(McVer.ltB a b)

/-- `McVerMatch` in `mcm/common.py`: optional base version plus operator
(empty-string operator means exact, caret means compatible); a `none` base
matches anything. -/
structure McVerMatch where
  ver : Option McVer
  operator : String := ""
deriving DecidableEq

/-- `McVerMatch.__call__` (`mcm/common.py` lines 262-267).  An unknown
operator raises, modelled as `none`. -/
def McVerMatch.call (m : McVerMatch) (other : McVer) : Option Bool :=
  match m.ver with
  | none => some true
  | some v =>
    match m.operator with
    | "" => some (v == other)
    | "^" => some (McVer.geB v other && other.minor == v.minor && other.major == v.major)
    | _ => none

/-- `McVerMatch.ANY` (`mcm/common.py` line 289). -/
def McVerMatch.ANY : McVerMatch := ⟨none, ""⟩

/-- `VerCmp` in `mcm/common.py`: optional version plus comparison operator. -/
structure VerCmp where
  ver : Option Ver
  operator : String := ""
deriving DecidableEq

/-- `VerCmp.__call__` (`mcm/common.py` lines 358-366).  The `<` and `<=`
branches surface the raw `Ver.__lt__` result (possibly a string); the
callers only observe truthiness.  An unknown operator raises `ValueError`,
modelled as `none`. -/
def VerCmp.call (c : VerCmp) (other : Ver) : Option PyBoolRet :=
  match c.ver with
  | none => some (.bool true)
  | some v =>
    match c.operator with
    | "" => some (.bool (v == other))
    | "<" => some (Ver.ltRaw v other)
    | "<=" => some (if (Ver.ltRaw v other).truthy then Ver.ltRaw v other else .bool (v == other))
    | ">" => some (.bool (Ver.gtT v other))
    | ">=" => some (.bool (Ver.geT v other))
    | _ => none

/-- `VerMatch` in `mcm/common.py`: a conjunction of `VerCmp` criteria plus a
minimum maturity floor. -/
structure VerMatch where
  criteria : List VerCmp := []
  min_ver_type : VerType := .ALPHA
deriving DecidableEq

/-- `VerMatch.ANY` (`mcm/common.py` line 425). -/
def VerMatch.ANY : VerMatch := {}

/-- The `all(c(other) for c in self.criteria)` part of `VerMatch.__call__`:
short-circuit conjunction under truthiness; a raising criterion propagates. -/
def verMatchAll (other : Ver) : List VerCmp → Option Bool
  | [] => some true
  | c :: cs =>
    match VerCmp.call c other with
    | none => none
    | some r => if r.truthy then verMatchAll other cs else some false

/-- `VerMatch.__call__` (`mcm/common.py` lines 409-411): reject when the
maturity floor exceeds the version maturity, else test all criteria. -/
def VerMatch.call (m : VerMatch) (other : Ver) : Option Bool :=
  if m.min_ver_type.toInt > other.type.toInt then some false
  else verMatchAll other m.criteria

/-- `Loader` in `mcm/common.py`. -/
inductive Loader where
  | FORGE
  | FABRIC
  | LITELOADER
  | MODLOADER
  | QUILT
  | RIFT
deriving DecidableEq

/-- `SideSupport` in `mcm/common.py`. -/
inductive SideSupport where
  | UNSUPPORTED
  | OPTIONAL
  | REQUIRED
deriving DecidableEq

/-- `Type` in `mcm/common.py` (named `MType` here because `Type` is a Lean
sort). -/
inductive MType where
  | MOD
  | SHADERPACK
  | DATAPACK
  | RESOURCEPACK
deriving DecidableEq

/-- `Side` in `mcm/common.py`: a bit flag over CLIENT and SERVER. -/
inductive Side where
  | NONE
  | CLIENT
  | SERVER
  | BOTH
deriving DecidableEq

/-- `LicenseType` in `mcm/common.py`. -/
inductive LicenseType where
  | CLOSED
  | PERMISSIVE
  | COPYLEFT
  | LGPL
  | CUSTOM
  | DANGEROUS
deriving DecidableEq

/-- `License` in `mcm/common.py`. -/
structure License where
  type : LicenseType
  name : String
deriving DecidableEq

/-- `HashType` in `mcm/modinfo.py`. -/
inductive HashType where
  | MD5
  | SHA1
  | SHA256
  | SHA512
deriving DecidableEq

/-- `Hash` in `mcm/modinfo.py`. -/
structure Hash where
  type : HashType
  value : String
deriving DecidableEq

/-- `ModFile` in `mcm/modinfo.py`. -/
structure ModFile where
  filename : String
  size : Option Nat
  hash : Hash
  url : Option String
deriving DecidableEq

/-- `Dep` in `mcm/modinfo.py`: a declared dependency. -/
structure Dep where
  is_required : Bool
  id : String
  ver_id : Option String := none
deriving DecidableEq

/-- `ModVerInfo` in `mcm/modinfo.py`. -/
structure ModVerInfo where
  file : ModFile
  dependencies : List Dep
  changelog : Option String := none
deriving DecidableEq

/-- `ModVer` in `mcm/modinfo.py`.  In the source, the `version` property
derives the token tuple from `version_string` through the regex heuristic
`strip_mcver`; the heuristic is out of scope here (no claim depends on it),
so the resulting token tuple is carried as the field `version_tokens`. -/
structure ModVer where
  id : String
  version_string : String
  version_type : VerType
  title : Option String
  loaders : List Loader
  published : Nat
  mcversions : List McVer
  version_tokens : List Tok
deriving DecidableEq

/-- The `ModVer.version` property: `Ver(strip_mcver(...), version_type)`. -/
def ModVer.version (v : ModVer) : Ver := ⟨v.version_tokens, v.version_type⟩

/-- Truthiness of `ModVer.__lt__` (`mcm/modinfo.py` lines 99-101): publish
time when the derived versions are equal, else the (truthy) `Ver` order. -/
def ModVer.ltT (a b : ModVer) : Bool :=
  if a.version == b.version then decide (a.published < b.published)
  else Ver.ltT a.version b.version

/-- `ModVerPair` in `mcm/modinfo.py`. -/
structure ModVerPair where
  ver : ModVer
  info : Option ModVerInfo := none
deriving DecidableEq

/-- The `ModVerPair.version` property. -/
def ModVerPair.version (p : ModVerPair) : Ver := p.ver.version

/-- The `ModVerPair.published` property. -/
def ModVerPair.published (p : ModVerPair) : Nat := p.ver.published

/-- `ModVerMatch` in `mcm/modinfo.py`: acceptance predicate for versions. -/
structure ModVerMatch where
  ver : VerMatch
  loader : Option Loader
  mcver : McVerMatch
  mcver_fallback : Option McVerMatch := none
  ver_str_match : Option String := none
deriving DecidableEq

/-- `ModVerMatch.RESULT_FAIL`. -/
def RESULT_FAIL : Nat := 0

/-- `ModVerMatch.RESULT_FALLBACK`. -/
def RESULT_FALLBACK : Nat := 1

/-- `ModVerMatch.RESULT_SUCCESS`. -/
def RESULT_SUCCESS : Nat := 2

/-- `any(map(match, vs))`: short-circuit disjunction; a raising call
propagates. -/
def pyAnyMcVer (m : McVerMatch) : List McVer → Option Bool
  | [] => some false
  | v :: vs =>
    match m.call v with
    | none => none
    | some true => some true
    | some false => pyAnyMcVer m vs

/-- Contiguous sublist test used to model the Python substring operator. -/
def listContainsSeq [BEq α] (needle : List α) : List α → Bool
  | [] => needle.isEmpty
  | a :: rest => needle.isPrefixOf (a :: rest) || listContainsSeq needle rest

/-- Python `needle in haystack` on lowercased strings (contiguous substring
test), used by the `ver_str_match` criterion. -/
def pySubstr (needle haystack : String) : Bool :=
  listContainsSeq (pyToLower needle).data (pyToLower haystack).data

/-- Truthiness of `McVerMatch.__bool__` applied to the optional fallback:
`None` is falsy, and so is a match whose `ver` is `None`. -/
def fallbackTruthy : Option McVerMatch → Bool
  | none => false
  | some m => m.ver.isSome

/-- `ModVerMatch.test` (`mcm/modinfo.py` lines 155-164).  Returns the
result code, or `none` when an embedded call raises. -/
def ModVerMatch.test (m : ModVerMatch) (v : ModVer) (fallback : Bool := true) : Option Nat :=
  match VerMatch.call m.ver v.version with
  | none => none
  | some vok =>
    if !vok then some RESULT_FAIL
    else if (match m.loader with
             | some l => !v.loaders.isEmpty && !(v.loaders.contains l)
             | none => false) then some RESULT_FAIL
    else if (match m.ver_str_match with
             | some s => !s.isEmpty && !(pySubstr s v.version_string)
             | none => false) then some RESULT_FAIL
    else
      match pyAnyMcVer m.mcver v.mcversions with
      | none => none
      | some true => some RESULT_SUCCESS
      | some false =>
        if fallback && fallbackTruthy m.mcver_fallback then
          match m.mcver_fallback with
          | some fm =>
            match pyAnyMcVer fm v.mcversions with
            | none => none
            | some true => some RESULT_FALLBACK
            | some false => some RESULT_FAIL
          | none => some RESULT_FAIL
        else some RESULT_FAIL

/-- `ModVerMatch.test_no_fallback`. -/
def ModVerMatch.test_no_fallback (m : ModVerMatch) (v : ModVer) : Option Nat :=
  m.test v false

/-- `ModDesc` in `mcm/modinfo.py`: immutable project metadata. -/
structure ModDesc where
  id : String
  type : MType
  name : String
  title : Option String := none
  updated : Option Nat := none
  created : Option Nat := none
  license : Option License := none
  short_desc : Option String := none
  desc : Option String := none
  client_side : Option SideSupport := none
  server_side : Option SideSupport := none
  issues_url : Option String := none
  source_url : Option String := none
  wiki_url : Option String := none
  discord_url : Option String := none
deriving DecidableEq

/-- `ModInfo` in `mcm/modinfo.py`; the `version_info` dict is modelled as
an association list in insertion order. -/
structure ModInfo where
  checked : Nat
  mod_desc : ModDesc
  versions : List ModVer
  version_info : List (String × ModVerInfo)
deriving DecidableEq

/-- Insertion into a stable-descending sorted list, placing `x` after every
element not below it; together with `pySortDesc` this models Python
`sorted(l, reverse=True)` (a stable descending sort driven by `__lt__`). -/
def pyInsertDesc (lt : α → α → Bool) (x : α) : List α → List α
  | [] => [x]
  | y :: ys => if lt x y then y :: pyInsertDesc lt x ys else x :: y :: ys

/-- Stable descending sort, modelling Python `sorted(l, reverse=True)`. -/
def pySortDesc (lt : α → α → Bool) : List α → List α
  | [] => []
  | x :: xs => pyInsertDesc lt x (pySortDesc lt xs)

/-- The truthiness filter of Python `filter(f, l)` where `f` returns a
result code (0 falsy): keep elements with non-zero code; a raising call
propagates. -/
def filterByTest (f : ModVer → Option Nat) : List ModVer → Option (List ModVer)
  | [] => some []
  | v :: vs =>
    match f v with
    | none => none
    | some r =>
      match filterByTest f vs with
      | none => none
      | some rest => some (if r ≠ 0 then v :: rest else rest)

/-- `ModInfo.get_versions` (`mcm/modinfo.py` lines 240-243): filter without
fallback; if nothing survives, filter with fallback; sort descending. -/
def ModInfo.get_versions (info : ModInfo) (mvm : ModVerMatch) : Option (List ModVer) :=
  match filterByTest mvm.test_no_fallback info.versions with
  | none => none
  | some vs1 =>
    match (if vs1.isEmpty then filterByTest (fun v => mvm.test v) info.versions else some vs1) with
    | none => none
    | some vs => some (pySortDesc ModVer.ltT vs)

/-- `ModInfo.get_latest_version` (`mcm/modinfo.py` line 246): first of
`get_versions`, or `None`. -/
def ModInfo.get_latest_version (info : ModInfo) (mvm : ModVerMatch) : Option (Option ModVer) :=
  (info.get_versions mvm).map List.head?

/-- `ModInfo.__post_init__`: keep the version list sorted descending. -/
def ModInfo.postInit (info : ModInfo) : ModInfo :=
  { info with versions := pySortDesc ModVer.ltT info.versions }

/-- The key comparison of `sorted(vs, key=lambda x: x.published, reverse=True)`
in `find_version`. -/
def pubLt (a b : ModVer) : Bool := decide (a.published < b.published)

/-- The warning decision of `find_version` (`mcm/resolve.py` lines 65-73):
after fetching `info`, it selects `latest = info.get_latest_version(mvm)` and
re-sorts the same matched set by publish time; a warning is added iff the two
publish stamps differ.  `none` models an exception: either a raising matcher,
or the `AttributeError`/`IndexError` crash when nothing matches (`latest` is
`None`).  The backend fetch itself is abstracted into the `info` argument. -/
def find_version_warn (info : ModInfo) (mvm : ModVerMatch) : Option Bool :=
  match info.get_versions mvm with
  | none => none
  | some allvers =>
    match allvers.head?, (pySortDesc pubLt allvers).head? with
    | some latest, some first => some (latest.published ≠ first.published)
    | _, _ => none

/-- A raised Python exception, identified by its message. -/
structure PyErr where
  msg : String
deriving DecidableEq

/-- `ModInfoManager.RECHECK_INTERVAL_MIN` (`mcm/infomanager.py` line 106). -/
def RECHECK_INTERVAL_MIN : Nat := 6 * 3600

/-- `ModInfoManager.RECHECK_INTERVAL_MAX` (`mcm/infomanager.py` line 107). -/
def RECHECK_INTERVAL_MAX : Nat := 10 * 3600

/-- Python `dict.update`: overwrite existing keys in place, append new keys
in order. -/
def dictUpdate (old new : List (String × ModVerInfo)) : List (String × ModVerInfo) :=
  new.foldl (fun acc kv =>
    if (acc.map Prod.fst).contains kv.fst
    then acc.map (fun kv0 => if kv0.fst = kv.fst then (kv0.fst, kv.snd) else kv0)
    else acc ++ [kv]) old

/-- The backend responses one `get_modinfo` call may await
(`backend.get_moddesc` and `backend.get_versions`); `.error` models a raised
upstream failure. -/
structure BackendIO where
  moddesc : Except PyErr ModDesc
  versions : Except PyErr (List ModVer × List (String × ModVerInfo))

/-- `ModInfoManager.get_modinfo` (`mcm/infomanager.py` lines 112-131),
as a function of the cache read (`self.cache.get_by_name`, which can raise,
return `None`, or return a cached `ModInfo`), the current time, the randomized
recheck interval drawn for this call, and the backend responses.  Returns the
call result and whether the backend was consulted.  The `try`/`except` of the
source wraps only the cache read: a cache failure is swallowed (`print`/`pass`)
and the flow continues to the fetch; a backend failure propagates. -/
def get_modinfo (cacheRead : Except PyErr (Option ModInfo)) (now interval : Nat)
    (be : BackendIO) : Except PyErr ModInfo × Bool :=
  let cached : Option ModInfo :=
    match cacheRead with
    | .error _ => none
    | .ok r => r
  match cached with
  | some info =>
    if now - info.checked < interval then (.ok info, false)
    else
      match be.moddesc with
      | .error e => (.error e, true)
      | .ok newdesc =>
        if info.mod_desc.updated ≠ newdesc.updated then
          match be.versions with
          | .error e => (.error e, true)
          | .ok (vers, newvi) =>
            (.ok ⟨now, newdesc, vers, dictUpdate info.version_info newvi⟩, true)
        else (.ok ⟨now, newdesc, info.versions, info.version_info⟩, true)
  | none =>
    match be.moddesc with
    | .error e => (.error e, true)
    | .ok newdesc =>
      match be.versions with
      | .error e => (.error e, true)
      | .ok (vers, newvi) => (.ok ⟨now, newdesc, vers, dictUpdate [] newvi⟩, true)

/-- `SourceType` in `mcm/common.py`. -/
inductive SourceType where
  | MODRINTH
  | CURSEFORGE
  | LOCAL
deriving DecidableEq

/-- `ModConf` in `mcm/modpakyml.py`: the originating manifest entry of an
explicit mod.  The resolver merge under check treats it opaquely (a plain
dataclass with no `__bool__`, hence always truthy), so only the identifying
name field is carried here. -/
structure ModConf where
  name : String
deriving DecidableEq

/-- An object reference to a `ModInfo`: `oid` models Python object identity
(`is`), `info` the object state. -/
structure ModInfoRef where
  oid : Nat
  info : ModInfo
deriving DecidableEq

/-- `ResolvedMod` in `mcm/resolve.py`: one resolution, with the list of
resolutions that required it. -/
structure ResolvedMod where
  mod : ModInfoRef
  ver : ModVerPair
  source : SourceType
  conf : Option ModConf := none
  dependents : List ResolvedMod := []

/-- Python `self.conf or other.conf`: a `ModConf` is always truthy, `None`
is falsy. -/
def pyOrConf : Option ModConf → Option ModConf → Option ModConf
  | some c, _ => some c
  | none, b => b

/-- `ResolvedMod.__and__` (`mcm/resolve.py` lines 30-34): raises `ValueError`
(modelled as `.error ()`) unless both operands hold the *identical* `ModInfo`
object; otherwise keeps the version-wise preferred version (via the derived
`Ver >=`), the operand source, the first truthy manifest entry, and the
concatenation of the dependents lists. -/
def ResolvedMod.and (a b : ResolvedMod) : Except Unit ResolvedMod :=
  if a.mod.oid ≠ b.mod.oid then .error ()
  else .ok ⟨a.mod,
            if Ver.geT a.ver.version b.ver.version then a.ver else b.ver,
            a.source, pyOrConf a.conf b.conf, a.dependents ++ b.dependents⟩

/-- Python `str.isnumeric` restricted to ASCII digits (all tokens under
test are ASCII). -/
def pyIsNumeric (s : String) : Bool := !s.isEmpty && s.data.all Char.isDigit

/-- Decimal value of a digit string, Python `int(s)`. -/
def strToNat (s : String) : Nat :=
  s.data.foldl (fun n c => n * 10 + (c.toNat - 48)) 0

/-- The local `maybeint` of `Ver.deserialize` (`mcm/common.py` line 336). -/
def maybeint (s : String) : Tok :=
  if pyIsNumeric s then .num (strToNat s) else .str s

/-- `Ver.serialize` (`mcm/common.py` lines 340-346): dot-joined `str()` of
the tokens plus an explicit maturity suffix. -/
def Ver.serialize (v : Ver) : String :=
  String.intercalate "." (v.version.map Tok.pyStr) ++
    (match v.type with
     | .RELEASE => "-RELEASE"
     | .BETA => "-BETA"
     | .ALPHA => "-ALPHA")

/-- `Ver.deserialize` (`mcm/common.py` lines 333-338): partition at the
first dash, split the version on dots, `maybeint` each part. -/
def Ver.deserialize (s : String) : Option Ver :=
  let p := pyPartition s (Char.ofNat 45)
  match VerType.deserialize p.2 with
  | none => none
  | some t => some ⟨(pySplit p.1 (Char.ofNat 46)).map maybeint, t⟩

/-- `Type.serialize` (`mcm/common.py` line 20): `None` for MOD, else the
enum value. -/
def MType.serialize : MType → Option String
  | .MOD => none
  | .SHADERPACK => some "shaderpack"
  | .DATAPACK => some "datapack"
  | .RESOURCEPACK => some "resourcepack"

/-- `Type.deserialize` (`mcm/common.py` lines 21-24): falsy input is MOD,
else lookup by lowercased value. -/
def MType.deserialize (val : Option String) : Option MType :=
  match val with
  | none => some .MOD
  | some s =>
    if s.isEmpty then some .MOD
    else match pyToLower s with
      | "mod" => some .MOD
      | "shaderpack" => some .SHADERPACK
      | "datapack" => some .DATAPACK
      | "resourcepack" => some .RESOURCEPACK
      | _ => none

/-- `Side.serialize` (`mcm/common.py` lines 80-82): `None` for BOTH, else
the lowercased flag name. -/
def Side.serialize : Side → Option String
  | .BOTH => none
  | .NONE => some "none"
  | .CLIENT => some "client"
  | .SERVER => some "server"

/-- `Side.deserialize` (`mcm/common.py` lines 75-78): falsy input is BOTH,
else lookup by uppercased name. -/
def Side.deserialize (val : Option String) : Option Side :=
  match val with
  | none => some .BOTH
  | some s =>
    if s.isEmpty then some .BOTH
    else match pyToUpper s with
      | "NONE" => some .NONE
      | "CLIENT" => some .CLIENT
      | "SERVER" => some .SERVER
      | "BOTH" => some .BOTH
      | _ => none

/-- `McVer.__str__` (`mcm/common.py` lines 191-195): patch elided when 0,
then suffix, then snapshot. -/
def McVer.str (m : McVer) : String :=
  let r := toString m.major ++ "." ++ toString m.minor
  let r := if m.patch ≠ 0 then r ++ "." ++ toString m.patch else r
  let r := if m.suffix ≠ "" then r ++ "-" ++ m.suffix else r
  if m.snapshot ≠ "" then r ++ "-" ++ m.snapshot else r

/-- `McVer.serialize` (`mcm/common.py` lines 206-208): the bare snapshot
label when present, else `str(self)`. -/
def McVer.serialize (m : McVer) : String :=
  if m.snapshot ≠ "" then m.snapshot else m.str

/-- `McVer.SNAPSHOTS` (`mcm/common.py` lines 233-254). -/
def SNAPSHOTS : List McVer := [
  ⟨1, 19, 3, "pre1", "22w42a"⟩,
  ⟨1, 19, 1, "pre1", "22w24a"⟩,
  ⟨1, 19, 0, "pre1", "22w11a"⟩,
  ⟨1, 18, 2, "pre1", "22w03a"⟩,
  ⟨1, 18, 0, "pre1", "21w37a"⟩,
  ⟨1, 17, 0, "pre1", "20w45a"⟩,
  ⟨1, 16, 2, "pre1", "20w27a"⟩,
  ⟨1, 16, 0, "pre1", "20w06a"⟩,
  ⟨1, 15, 0, "pre1", "19w34a"⟩,
  ⟨1, 14, 0, "pre1", "18w43a"⟩,
  ⟨1, 13, 1, "pre1", "18w30a"⟩,
  ⟨1, 13, 0, "pre1", "17w43a"⟩,
  ⟨1, 12, 1, "pre1", "17w31a"⟩,
  ⟨1, 12, 0, "pre1", "17w06a"⟩,
  ⟨1, 11, 1, "", "16w50a"⟩,
  ⟨1, 11, 0, "pre1", "16w32a"⟩,
  ⟨1, 10, 0, "pre1", "16w20a"⟩,
  ⟨1, 9, 3, "pre1", "16w14a"⟩,
  ⟨1, 9, 0, "pre1", "15w31a"⟩,
  ⟨1, 8, 0, "pre1", "14w02a"⟩]

/-- Python string `<=`. -/
def pyStrLe (s t : String) : Bool := s == t || pyStrLt s t

/-- The snapshot lookup loop of `McVer.deserialize`: first table entry whose
snapshot label is `<=` the given label. -/
def snapshotLookup (ver : String) : List McVer → Option McVer
  | [] => none
  | v :: vs =>
    if pyStrLe v.snapshot ver then some { v with snapshot := ver }
    else snapshotLookup ver vs

/-- `McVer.deserialize` (`mcm/common.py` lines 210-220): dotted versions are
parsed numerically (two parts padded with patch 0, exactly three components
accepted); otherwise the snapshot table resolves the label, and an unknown
label raises (`none`). -/
def McVer.deserialize (s : String) : Option McVer :=
  let p := pyPartition s (Char.ofNat 45)
  if pyContainsChar p.1 (Char.ofNat 46) then
    let parts := pySplit p.1 (Char.ofNat 46)
    if parts.all pyIsNumeric then
      match parts.map strToNat with
      | [a, b] => some ⟨a, b, 0, p.2, ""⟩
      | [a, b, c] => some ⟨a, b, c, p.2, ""⟩
      | _ => none
    else none
  else snapshotLookup p.1 SNAPSHOTS

/-- `McVerMatch.serialize` / `__str__` (`mcm/common.py` lines 270-278). -/
def McVerMatch.serialize (m : McVerMatch) : String :=
  match m.ver with
  | none => "*"
  | some v => m.operator ++ v.serialize

/-- `McVerMatch.deserialize` (`mcm/common.py` lines 283-287). -/
def McVerMatch.deserialize (s : String) : Option McVerMatch :=
  if s = "*" then some McVerMatch.ANY
  else if (String.mk (s.data.take 1)) = "^" then
    (McVer.deserialize (String.mk (s.data.drop 1))).map (fun v => ⟨some v, "^"⟩)
  else (McVer.deserialize s).map (fun v => ⟨some v, ""⟩)

/-- A structured value as produced and consumed by the generic codecs of
`mcm/serialize.py` (nested mappings, sequences, scalars). -/
inductive Json where
  | null
  | bool (b : Bool)
  | num (n : Nat)
  | str (s : String)
  | arr (xs : List Json)
  | obj (fields : List (String × Json))

/-- Field lookup in an encoded object; unknown keys in the input are simply
never looked up (the generic parser reads only declared fields). -/
def jsonLookup (k : String) : List (String × Json) → Option Json
  | [] => none
  | kv :: rest => if kv.fst = k then some kv.snd else jsonLookup k rest

/-- The serializer that `mcm/serialize.py` (`get_serializer`, lines 130-138,
over `serializers`) derives for the dataclass `Dep`: each init field in
declaration order, a field equal to its declared default is OMITted;
`is_required` and `id` have no default and are always present. -/
def Dep.serializeJson (d : Dep) : Json :=
  .obj ([("is_required", .bool d.is_required), ("id", .str d.id)] ++
    (match d.ver_id with
     | none => []
     | some s => [("ver_id", .str s)]))

/-- The parser that `mcm/serialize.py` (`get_parser`, lines 90-98, over
`parsers`) derives for `Dep`: required fields must be present with the right
shape (else the decode raises, modelled as `none`); the optional `ver_id`
falls back to its default `None` when absent. -/
def Dep.parseJson : Json → Option Dep
  | .obj fs =>
    match jsonLookup "is_required" fs, jsonLookup "id" fs with
    | some (.bool b), some (.str i) =>
      match jsonLookup "ver_id" fs with
      | none => some ⟨b, i, none⟩
      | some (.str s) => some ⟨b, i, some s⟩
      | some .null => some ⟨b, i, none⟩
      | some _ => none
    | _, _ => none
  | _ => none

/-- The collection serializer derived for `list[Dep]`
(`mcm/serialize.py` lines 119-122): `list(map(ser, x))`. -/
def depListSerialize (ds : List Dep) : Json := .arr (ds.map Dep.serializeJson)

/-- The collection parser derived for `list[Dep]`
(`mcm/serialize.py` lines 79-82): `collection(map(parse, x))`. -/
def depListParse : Json → Option (List Dep)
  | .arr xs => xs.mapM Dep.parseJson
  | _ => none

/-- Equality of the `cmp` sort keys of two `McVer` values.  The derived order
is only a preorder on values: distinct values can share a key (suffix `""`
and suffix `"release"` both map to the key `"release"`). -/
def McVer.cmpKeyEq (a b : McVer) : Bool :=
  a.major == b.major && a.minor == b.minor && a.patch == b.patch &&
    a.suffixKey == b.suffixKey && a.snapshotKey == b.snapshotKey

/-- Sample game version 1.18.2. -/
def mc182 : McVer := ⟨1, 18, 2, "", ""⟩

/-- Sample game version 1.19.0. -/
def mc190 : McVer := ⟨1, 19, 0, "", ""⟩

/-- Sample descriptor. -/
def desc0 : ModDesc := { id := "m", type := .MOD, name := "m" }

/-- Sample descriptor with a bumped `updated` stamp. -/
def desc1 : ModDesc := { id := "m", type := .MOD, name := "m", updated := some 5 }

/-- Sample published version: version 1, published at 10, for 1.18.2. -/
def ver1 : ModVer := ⟨"v1", "1.0", .RELEASE, none, [], 10, [mc182], [.num 1]⟩

/-- Sample published version: version 2, published at 20, for 1.19.0 only. -/
def ver2 : ModVer := ⟨"v2", "2.0", .RELEASE, none, [], 20, [mc190], [.num 2]⟩

/-- Sample published version: version 0.9, published at 30, for 1.18.2. -/
def ver3 : ModVer := ⟨"v3", "0.9", .RELEASE, none, [], 30, [mc182], [.num 0]⟩

/-- Sample acceptance predicate: any version range, no loader, game version
exactly 1.18.2, no fallback. -/
def match182 : ModVerMatch := ⟨VerMatch.ANY, none, ⟨some mc182, ""⟩, none, none⟩

/-- Sample mod with versions `ver1` and `ver2`. -/
def info12 : ModInfo := ⟨0, desc0, [ver1, ver2], []⟩

/-- Sample mod with versions `ver1` and `ver3`. -/
def info13 : ModInfo := ⟨0, desc0, [ver1, ver3], []⟩

/-- Sample cached mod checked at time 1000. -/
def cachedInfo : ModInfo := ⟨1000, desc0, [ver1], []⟩

/-- Backend responses that succeed. -/
def beOK : BackendIO := ⟨.ok desc1, .ok ([ver1, ver2], [])⟩

/-- Backend responses whose descriptor fetch fails. -/
def beFail : BackendIO := ⟨.error ⟨"boom"⟩, .ok ([], [])⟩

/-- Sample chosen version pair. -/
def pair1 : ModVerPair := ⟨ver1, none⟩

/-- Sample chosen version pair for `ver2`. -/
def pair2 : ModVerPair := ⟨ver2, none⟩

/-- Sample `ModInfo` object reference with identity 0. -/
def ref0 : ModInfoRef := ⟨0, info12⟩

/-- A second reference with a *distinct identity* but an equal `ModInfo`
value (Python: a distinct but `==`-equal object). -/
def ref1 : ModInfoRef := ⟨1, info12⟩

/-- Sample dependent resolution (an explicit manifest mod). -/
def depMod : ResolvedMod := ⟨ref0, pair1, .MODRINTH, some ⟨"c"⟩, []⟩

/-- Sample resolution with one dependent. -/
def resA : ResolvedMod := ⟨ref0, pair1, .MODRINTH, none, [depMod]⟩

/-- Sample resolution of the same mod object reached via another requester. -/
def resB : ResolvedMod := ⟨ref0, pair2, .MODRINTH, none, []⟩

/-- Resolution holding the `==`-equal but not identical `ModInfo` copy. -/
def resCopy : ResolvedMod := ⟨ref1, pair1, .MODRINTH, none, []⟩

/-! Helper lemmas. -/

theorem charListLt_irrefl : ∀ l : List Char, charListLt l l = false := by
  intro l
  induction l with
  | nil => rfl
  | cons c cs ih => simp [charListLt, ih]

theorem charListLt_asymm : ∀ {l m : List Char},
    charListLt l m = true → charListLt m l = false := by
  intro l
  induction l with
  | nil => intro m h; cases m with
    | nil => rfl
    | cons d ds => rfl
  | cons c cs ih =>
    intro m h
    cases m with
    | nil => exact absurd h (by simp [charListLt])
    | cons d ds =>
      by_cases h1 : c.toNat < d.toNat
      · simp [charListLt, h1, Nat.lt_asymm h1]
      · by_cases h2 : d.toNat < c.toNat
        · simp [charListLt, h1, h2] at h
        · have h3 : charListLt cs ds = true := by
            simpa [charListLt, h1, h2] using h
          simp [charListLt, h1, h2, ih h3]

theorem charListLt_connex : ∀ {l m : List Char},
    charListLt l m = false → charListLt m l = false → l = m := by
  intro l
  induction l with
  | nil => intro m h1 h2; cases m with
    | nil => rfl
    | cons d ds => exact absurd h1 (by simp [charListLt])
  | cons c cs ih =>
    intro m h1 h2
    cases m with
    | nil => exact absurd h2 (by simp [charListLt])
    | cons d ds =>
      by_cases hc : c.toNat < d.toNat
      · exact absurd h1 (by simp [charListLt, hc])
      · by_cases hd : d.toNat < c.toNat
        · exact absurd h2 (by simp [charListLt, hd])
        · have hv : c = d := Char.ext (UInt32.ext (by
            simp only [Char.toNat] at hc hd
            omega))
          subst hv
          have h1' : charListLt cs ds = false := by
            simpa [charListLt, hc, hd] using h1
          have h2' : charListLt ds cs = false := by
            simpa [charListLt, hc, hd] using h2
          rw [ih h1' h2']

theorem pyStrLt_irrefl (s : String) : pyStrLt s s = false :=
  charListLt_irrefl s.data

theorem pyStrLt_asymm {s t : String} (h : pyStrLt s t = true) : pyStrLt t s = false :=
  charListLt_asymm h

theorem pyStrLt_connex {s t : String} (h1 : pyStrLt s t = false)
    (h2 : pyStrLt t s = false) : s = t := by
  cases s with
  | mk sd =>
    cases t with
    | mk td => exact congrArg String.mk (charListLt_connex h1 h2)

theorem pyStrLt_false_iff (s t : String) :
    pyStrLt s t = false ↔ (pyStrLt t s = true ∨ s = t) := by
  constructor
  · intro h
    cases ht : pyStrLt t s with
    | false => exact Or.inr (pyStrLt_connex h ht)
    | true => exact Or.inl rfl
  · rintro (h | rfl)
    · exact pyStrLt_asymm h
    · exact pyStrLt_irrefl s

theorem mcVer_ltB_false_iff (a b : McVer) :
    McVer.ltB a b = false ↔ (McVer.ltB b a = true ∨ McVer.cmpKeyEq a b = true) := by
  unfold McVer.ltB McVer.cmpKeyEq
  by_cases h1 : a.major = b.major
  · by_cases h2 : a.minor = b.minor
    · by_cases h3 : a.patch = b.patch
      · by_cases h4 : a.suffixKey = b.suffixKey
        · simp [h1, h2, h3, h4, pyStrLt_false_iff]
        · have h4' : ¬ b.suffixKey = a.suffixKey := fun h => h4 h.symm
          simp [h1, h2, h3, h4, h4', pyStrLt_false_iff]
      · have h3' : ¬ b.patch = a.patch := fun h => h3 h.symm
        simp [h1, h2, h3, h3']
        omega
    · have h2' : ¬ b.minor = a.minor := fun h => h2 h.symm
      simp [h1, h2, h2']
      omega
  · have h1' : ¬ b.major = a.major := fun h => h1 h.symm
    simp [h1, h1']
    omega

/-! Claim theorems. -/

/-- C1: the claim says two `Ver` values with equal token tuples and equal
maturity compare equal, with neither strictly below the other.  The code
violates this: dataclass equality does hold, but `Ver.__lt__` on such a pair
falls through its loop and returns the (non-empty, hence truthy) string built
by the stray copy of `__repr__`, so `v < v` is observed as true — the
comparison protocol is broken by the copy-paste slip at `mcm/common.py`
lines 325-326.  This theorem evaluates the code at the failing input. -/
theorem c1_equal_vers_compare_truthy_less :
    (Ver.mk [.num 1, .num 18] .RELEASE) = (Ver.mk [.num 1, .num 18] .RELEASE) ∧
    Ver.ltRaw (Ver.mk [.num 1, .num 18] .RELEASE) (Ver.mk [.num 1, .num 18] .RELEASE) =
      .strval "Ver((1, 18))" ∧
    Ver.ltT (Ver.mk [.num 1, .num 18] .RELEASE) (Ver.mk [.num 1, .num 18] .RELEASE) = true :=
  ⟨rfl, by decide, by decide⟩

/-- C2 counterexample: the claim says `McVerMatch("^1.18.0")` matches
`1.18.2`; the code rejects it, because the caret branch tests
`self.ver >= other`, accepting only versions the base does not precede. -/
theorem c2_caret_rejects_higher_patch :
    McVerMatch.call ⟨some ⟨1, 18, 0, "", ""⟩, "^"⟩ ⟨1, 18, 2, "", ""⟩ = some false := by
  decide

/-- C2 (amended): the caret operator accepts exactly the `McVer` values with
the same major and minor as the base that the base does not precede in
`cmp`-tuple order (strictly below the base, or sharing its sort key); in
particular `^1.18.0` matches `1.18.0` and rejects `1.18.2`, `1.19.0` and
`1.17.3`. -/
theorem c2_caret_same_majorminor_not_above :
    (∀ base other : McVer,
      McVerMatch.call ⟨some base, "^"⟩ other = some true ↔
        (other.major = base.major ∧ other.minor = base.minor ∧
          (McVer.ltB other base = true ∨ McVer.cmpKeyEq base other = true))) ∧
    McVerMatch.call ⟨some ⟨1, 18, 0, "", ""⟩, "^"⟩ ⟨1, 18, 0, "", ""⟩ = some true ∧
    McVerMatch.call ⟨some ⟨1, 18, 0, "", ""⟩, "^"⟩ ⟨1, 18, 2, "", ""⟩ = some false ∧
    McVerMatch.call ⟨some ⟨1, 18, 0, "", ""⟩, "^"⟩ ⟨1, 19, 0, "", ""⟩ = some false ∧
    McVerMatch.call ⟨some ⟨1, 18, 0, "", ""⟩, "^"⟩ ⟨1, 17, 3, "", ""⟩ = some false := by
  refine ⟨fun base other => ?_, by decide, by decide, by decide, by decide⟩
  simp only [McVerMatch.call, McVer.geB, Option.some.injEq, Bool.and_eq_true,
    Bool.not_eq_true', beq_iff_eq]
  rw [mcVer_ltB_false_iff]
  constructor
  · rintro ⟨⟨h1, h2⟩, h3⟩
    exact ⟨h3, h2, h1⟩
  · rintro ⟨h1, h2, h3⟩
    exact ⟨⟨h3, h2⟩, h1⟩

/-- C3 counterexample: the claim says that with equal maturity, when one
token tuple is a proper prefix of the other, the shorter sorts lowest; the
code does the opposite — `Ver(("1",)) < Ver(("1","2"))` is false and
`Ver(("1","2")) < Ver(("1",))` is true (`mcm/common.py` lines 317-318). -/
theorem c3_shorter_tuple_sorts_higher :
    Ver.ltT ⟨[.num 1], .RELEASE⟩ ⟨[.num 1, .num 2], .RELEASE⟩ = false ∧
    Ver.ltT ⟨[.num 1, .num 2], .RELEASE⟩ ⟨[.num 1], .RELEASE⟩ = true := by
  decide

theorem verLtLoop_skip_nums (t : List Nat) (xs ys : List Tok) :
    verLtLoop (t.map Tok.num ++ xs) (t.map Tok.num ++ ys) = verLtLoop xs ys := by
  induction t with
  | nil => rfl
  | cons a t ih => simpa [verLtLoop] using ih

theorem verLtLoop_append_nil (u : List Tok) (hu : u ≠ []) :
    verLtLoop u [] = some true ∧ verLtLoop [] u = some false := by
  cases u with
  | nil => exact absurd rfl hu
  | cons x xs => exact ⟨rfl, rfl⟩

/-- C3 (amended): `Ver` ordering scans positions left to right, continuing
only past equal integer tokens.  Past such a common prefix (maturity being
ignored by `__lt__` altogether): when one tuple ends, the *longer* one sorts
lowest; an a or b token sorts below an integer token; two integers
compare numerically; a string meets another token by Python string
comparison of their `str()` forms. -/
theorem c3_componentwise_order (ty : VerType) (t : List Nat) :
    (∀ u : List Tok, u ≠ [] →
      Ver.ltT ⟨t.map Tok.num ++ u, ty⟩ ⟨t.map Tok.num, ty⟩ = true ∧
      Ver.ltT ⟨t.map Tok.num, ty⟩ ⟨t.map Tok.num ++ u, ty⟩ = false) ∧
    (∀ (s : String) (n : Nat) (r1 r2 : List Tok), s = "a" ∨ s = "b" →
      Ver.ltT ⟨t.map Tok.num ++ .str s :: r1, ty⟩ ⟨t.map Tok.num ++ .num n :: r2, ty⟩ = true ∧
      Ver.ltT ⟨t.map Tok.num ++ .num n :: r1, ty⟩ ⟨t.map Tok.num ++ .str s :: r2, ty⟩ = false) ∧
    (∀ (m n : Nat) (r1 r2 : List Tok), m ≠ n →
      Ver.ltT ⟨t.map Tok.num ++ .num m :: r1, ty⟩ ⟨t.map Tok.num ++ .num n :: r2, ty⟩ =
        decide (m < n)) ∧
    (∀ (s : String) (n : Nat) (r1 r2 : List Tok), s ≠ "a" → s ≠ "b" →
      Ver.ltT ⟨t.map Tok.num ++ .str s :: r1, ty⟩ ⟨t.map Tok.num ++ .num n :: r2, ty⟩ =
        pyStrLt s (toString n) ∧
      Ver.ltT ⟨t.map Tok.num ++ .num n :: r1, ty⟩ ⟨t.map Tok.num ++ .str s :: r2, ty⟩ =
        pyStrLt (toString n) s) ∧
    (∀ (s1 s2 : String) (r1 r2 : List Tok),
      Ver.ltT ⟨t.map Tok.num ++ .str s1 :: r1, ty⟩ ⟨t.map Tok.num ++ .str s2 :: r2, ty⟩ =
        pyStrLt s1 s2) := by
  refine ⟨fun u hu => ?_, fun s n r1 r2 hs => ?_, fun m n r1 r2 hmn => ?_,
    fun s n r1 r2 ha hb => ?_, fun s1 s2 r1 r2 => ?_⟩
  · have h1 := verLtLoop_skip_nums t u []
    have h2 := verLtLoop_skip_nums t [] u
    rw [List.append_nil] at h1 h2
    rw [(verLtLoop_append_nil u hu).1] at h1
    rw [(verLtLoop_append_nil u hu).2] at h2
    simp [Ver.ltT, Ver.ltRaw, h1, h2, PyBoolRet.truthy]
  · have hv := verLtLoop_skip_nums t (Tok.str s :: r1) (Tok.num n :: r2)
    have hw := verLtLoop_skip_nums t (Tok.num n :: r1) (Tok.str s :: r2)
    have hsab : (s = "a" || s = "b") = true := by
      rcases hs with h | h <;> simp [h]
    constructor
    · simp [Ver.ltT, Ver.ltRaw, hv, verLtLoop, hsab, PyBoolRet.truthy]
    · simp [Ver.ltT, Ver.ltRaw, hw, verLtLoop, hsab, PyBoolRet.truthy]
  · have hv := verLtLoop_skip_nums t (Tok.num m :: r1) (Tok.num n :: r2)
    rcases Nat.lt_or_ge m n with h | h
    · simp [Ver.ltT, Ver.ltRaw, hv, verLtLoop, h, PyBoolRet.truthy]
    · have h' : ¬ m < n := Nat.not_lt.mpr h
      have h'' : n < m := Nat.lt_of_le_of_ne h (fun e => hmn e.symm)
      simp [Ver.ltT, Ver.ltRaw, hv, verLtLoop, h', h'', PyBoolRet.truthy]
  · have hv := verLtLoop_skip_nums t (Tok.str s :: r1) (Tok.num n :: r2)
    have hw := verLtLoop_skip_nums t (Tok.num n :: r1) (Tok.str s :: r2)
    have hsab : (s = "a" || s = "b") = false := by simp [ha, hb]
    constructor
    · simp [Ver.ltT, Ver.ltRaw, hv, verLtLoop, hsab, PyBoolRet.truthy]
    · simp [Ver.ltT, Ver.ltRaw, hw, verLtLoop, hsab, PyBoolRet.truthy]
  · have hv := verLtLoop_skip_nums t (Tok.str s1 :: r1) (Tok.str s2 :: r2)
    simp [Ver.ltT, Ver.ltRaw, hv, verLtLoop, PyBoolRet.truthy]

/-- C3 witness: the amended characterization applied at concrete inputs. -/
theorem c3_componentwise_order_witness :
    Ver.ltT ⟨[.num 1, .num 2], .RELEASE⟩ ⟨[.num 1], .RELEASE⟩ = true ∧
    Ver.ltT ⟨[.num 1, .str "b"], .RELEASE⟩ ⟨[.num 1, .num 3], .RELEASE⟩ = true ∧
    Ver.ltT ⟨[.num 1, .num 2], .RELEASE⟩ ⟨[.num 1, .num 3], .RELEASE⟩ = decide (2 < 3) ∧
    Ver.ltT ⟨[.num 1, .str "rc"], .RELEASE⟩ ⟨[.num 1, .num 3], .RELEASE⟩ =
      pyStrLt "rc" (toString 3) ∧
    Ver.ltT ⟨[.num 1, .str "x"], .RELEASE⟩ ⟨[.num 1, .str "y"], .RELEASE⟩ = pyStrLt "x" "y" := by
  obtain ⟨h1, h2, h3, h4, h5⟩ := c3_componentwise_order .RELEASE [1]
  exact ⟨(h1 [.num 2] (by simp)).1, (h2 "b" 3 [] [] (Or.inr rfl)).1,
    h3 2 3 [] [] (by decide), (h4 "rc" 3 [] [] (by decide) (by decide)).1,
    h5 "x" "y" [] []⟩

/-- C9: when a version declares no loaders, the loader criterion of
`ModVerMatch.test` never rejects it — the result is the same as for an
otherwise identical match with no loader requirement (the guard
`self.loader and v.loaders and ...` is short-circuited by the empty,
falsy, loader set). -/
theorem c9_empty_loaders_ignore_loader (m : ModVerMatch) (l : Loader) (v : ModVer)
    (fb : Bool) (h : v.loaders = []) :
    ModVerMatch.test { m with loader := some l } v fb =
      ModVerMatch.test { m with loader := none } v fb := by
  simp [ModVerMatch.test, h]

/-- C9 witness: a loaderless sample version under a FABRIC-requiring match. -/
theorem c9_empty_loaders_ignore_loader_witness :
    ModVerMatch.test { match182 with loader := some .FABRIC } ver1 true =
      ModVerMatch.test { match182 with loader := none } ver1 true :=
  c9_empty_loaders_ignore_loader match182 .FABRIC ver1 true rfl

/-- C10: `ResolvedMod.__and__` raises `ValueError` exactly when the two
operands do not hold the *identical* `ModInfo` object (object identity,
modelled by `oid`); with the identical object it returns a merged
resolution without raising.  In particular two `==`-equal but distinct
copies still raise, since their identities differ. -/
theorem c10_and_identity (a b : ResolvedMod) :
    ((ResolvedMod.and a b = .error ()) ↔ a.mod.oid ≠ b.mod.oid) ∧
    (a.mod.oid = b.mod.oid → ∃ r, ResolvedMod.and a b = .ok r) := by
  unfold ResolvedMod.and
  by_cases h : a.mod.oid = b.mod.oid
  · simp [h]
  · simp [h]

/-- C10 witness: merging with an `==`-equal but non-identical copy raises;
merging with the identical object succeeds. -/
theorem c10_and_identity_witness :
    (ResolvedMod.and resA resCopy = .error ()) ∧
    (∃ r, ResolvedMod.and resA resA = .ok r) :=
  ⟨(c10_and_identity resA resCopy).1.mpr (by decide),
    (c10_and_identity resA resA).2 rfl⟩

/-- C5 counterexample: the claim says merging a resolution with itself
changes nothing; but `__and__` concatenates the dependents lists, so a
resolution with one dependent merges with itself into one with that
dependent twice. -/
theorem c5_self_merge_not_idempotent : ResolvedMod.and resA resA ≠ Except.ok resA := by
  have h0 : ResolvedMod.and resA resA =
      Except.ok ⟨ref0, pair1, .MODRINTH, none, [depMod, depMod]⟩ := rfl
  rw [h0]
  intro h
  have h1 := Except.ok.inj h
  have h2 := congrArg ResolvedMod.dependents h1
  simp [resA] at h2

/-- C5 (amended): merge (`&`) of two resolutions of the same mod object
keeps one of the two chosen versions (picked by the derived `Ver >=`), the
first non-null manifest entry, and the *concatenation* of the dependents
lists — hence, at set level, the union of the requesters, independent of
merge order; but merge is not idempotent: a self-merge keeps mod, version,
source and manifest entry while concatenating the dependents list with
itself. -/
theorem c5_merge_union_not_idempotent (a b : ResolvedMod) (h : a.mod.oid = b.mod.oid) :
    (∃ r, ResolvedMod.and a b = .ok r ∧
      r.mod = a.mod ∧
      r.dependents = a.dependents ++ b.dependents ∧
      (∀ d, d ∈ r.dependents ↔ d ∈ a.dependents ∨ d ∈ b.dependents) ∧
      (r.conf.isSome ↔ (a.conf.isSome ∨ b.conf.isSome)) ∧
      (r.ver = a.ver ∨ r.ver = b.ver)) ∧
    (∃ r, ResolvedMod.and a a = .ok r ∧
      r.mod = a.mod ∧ r.ver = a.ver ∧ r.source = a.source ∧ r.conf = a.conf ∧
      r.dependents = a.dependents ++ a.dependents) := by
  constructor
  · refine ⟨⟨a.mod, if Ver.geT a.ver.version b.ver.version then a.ver else b.ver,
        a.source, pyOrConf a.conf b.conf, a.dependents ++ b.dependents⟩,
      by simp [ResolvedMod.and, h], rfl, rfl, fun d => List.mem_append, ?_, ?_⟩
    · cases a.conf <;> simp [pyOrConf]
    · by_cases hv : Ver.geT a.ver.version b.ver.version = true
      · exact Or.inl (by simp [hv])
      · exact Or.inr (by simp [hv])
  · refine ⟨⟨a.mod, if Ver.geT a.ver.version a.ver.version then a.ver else a.ver,
        a.source, pyOrConf a.conf a.conf, a.dependents ++ a.dependents⟩,
      by simp [ResolvedMod.and], rfl, ?_, rfl, ?_, rfl⟩
    · exact ite_self a.ver
    · cases a.conf <;> rfl

/-- C5 witness: the amended merge facts at the sample resolutions `resA`
(one dependent, no manifest entry) and `resB` (same mod object). -/
theorem c5_merge_union_not_idempotent_witness :
    (∃ r, ResolvedMod.and resA resB = .ok r ∧
      r.mod = resA.mod ∧
      r.dependents = resA.dependents ++ resB.dependents ∧
      (∀ d, d ∈ r.dependents ↔ d ∈ resA.dependents ∨ d ∈ resB.dependents) ∧
      (r.conf.isSome ↔ (resA.conf.isSome ∨ resB.conf.isSome)) ∧
      (r.ver = resA.ver ∨ r.ver = resB.ver)) ∧
    (∃ r, ResolvedMod.and resA resA = .ok r ∧
      r.mod = resA.mod ∧ r.ver = resA.ver ∧ r.source = resA.source ∧
      r.conf = resA.conf ∧ r.dependents = resA.dependents ++ resA.dependents) :=
  c5_merge_union_not_idempotent resA resB rfl

/-- C7: for every recheck interval drawn from the `[6h, 10h)` window, a
cached `ModInfo` younger than the 6-hour minimum is returned as-is without
consulting the backend, and one at least as old as the 10-hour maximum
always triggers a backend fetch. -/
theorem c7_staleness_window (interval now : Nat) (info : ModInfo) (be : BackendIO)
    (h1 : RECHECK_INTERVAL_MIN ≤ interval) (h2 : interval < RECHECK_INTERVAL_MAX) :
    (now - info.checked < RECHECK_INTERVAL_MIN →
      get_modinfo (.ok (some info)) now interval be = (.ok info, false)) ∧
    (RECHECK_INTERVAL_MAX ≤ now - info.checked →
      (get_modinfo (.ok (some info)) now interval be).2 = true) := by
  constructor
  · intro hf
    have hlt : now - info.checked < interval := lt_of_lt_of_le hf h1
    simp [get_modinfo, hlt]
  · intro hs
    have hni : ¬ (now - info.checked < interval) := by omega
    rcases be with ⟨md, vs⟩
    cases md with
    | error e => simp [get_modinfo, hni]
    | ok d =>
      cases vs with
      | error e2 =>
        by_cases hu : info.mod_desc.updated = d.updated <;> simp [get_modinfo, hni, hu]
      | ok pr =>
        by_cases hu : info.mod_desc.updated = d.updated <;> simp [get_modinfo, hni, hu]

/-- C7 witness: the staleness bounds at a sample cache entry. -/
theorem c7_staleness_window_witness :
    get_modinfo (.ok (some cachedInfo)) 2000 21600 beOK = (.ok cachedInfo, false) ∧
    (get_modinfo (.ok (some cachedInfo)) 50000 21600 beOK).2 = true :=
  ⟨(c7_staleness_window 21600 2000 cachedInfo beOK (le_refl _) (by decide)).1 (by decide),
    (c7_staleness_window 21600 50000 cachedInfo beOK (le_refl _) (by decide)).2 (by decide)⟩

/-- C6 counterexample: a mod with a stale cached copy whose revalidation
fetch fails.  The claim says the stale cached `ModInfo` is served; the code
propagates the failure (`mcm/infomanager.py` wraps only the cache *read* in
`try`/`except`, not the backend fetch). -/
theorem c6_revalidation_failure_propagates :
    get_modinfo (.ok (some cachedInfo)) 50000 30000 beFail = (.error ⟨"boom"⟩, true) ∧
    (get_modinfo (.ok (some cachedInfo)) 50000 30000 beFail).1 ≠ .ok cachedInfo := by
  refine ⟨rfl, ?_⟩
  intro h
  rw [show (get_modinfo (.ok (some cachedInfo)) 50000 30000 beFail).1 =
    Except.error ⟨"boom"⟩ from rfl] at h
  exact Except.noConfusion h

/-- C6 (amended): the non-fatal failure in `get_modinfo` is the cache
*read*: a raising cache read behaves exactly like a cache miss and the call
proceeds to fetch; a backend descriptor failure propagates whenever the
fetch happens — on a stale cached copy just as on a never-seen mod — and
stale data is never served in its place. -/
theorem c6_cache_read_swallowed_backend_fatal (e e2 : PyErr) (now interval : Nat)
    (be : BackendIO) (hbe : be.moddesc = .error e2) :
    (get_modinfo (.error e) now interval be = get_modinfo (.ok none) now interval be) ∧
    (∀ info : ModInfo, interval ≤ now - info.checked →
      (get_modinfo (.ok (some info)) now interval be).1 = .error e2) ∧
    ((get_modinfo (.ok none) now interval be).1 = .error e2) := by
  refine ⟨rfl, ?_, ?_⟩
  · intro info hage
    have hni : ¬ (now - info.checked < interval) := by omega
    simp [get_modinfo, hni, hbe]
  · simp [get_modinfo, hbe]

/-- C6 witness: the amended behaviour at sample data (corrupt cache read,
failing backend, stale cached copy). -/
theorem c6_cache_read_swallowed_backend_fatal_witness :
    (get_modinfo (.error ⟨"corrupt"⟩) 50000 30000 beFail =
      get_modinfo (.ok none) 50000 30000 beFail) ∧
    (get_modinfo (.ok (some cachedInfo)) 50000 30000 beFail).1 = .error ⟨"boom"⟩ :=
  ⟨(c6_cache_read_swallowed_backend_fatal ⟨"corrupt"⟩ ⟨"boom"⟩ 50000 30000 beFail rfl).1,
    (c6_cache_read_swallowed_backend_fatal ⟨"corrupt"⟩ ⟨"boom"⟩ 50000 30000 beFail rfl).2.1
      cachedInfo (by decide)⟩

/-- C8 counterexample: a `Ver` whose numeric tokens are strings — the form
the tokenizer `Ver.parse` always produces, so a thoroughly representative
instance — does not round-trip: serialization writes the bare digit runs and
`deserialize` re-parses them as ints, yielding a different (`!=`) value. -/
theorem c8_string_token_ver_breaks_roundtrip :
    Ver.deserialize (Ver.serialize ⟨[.str "1", .str "18", .str "2"], .RELEASE⟩) =
      some ⟨[.num 1, .num 18, .num 2], .RELEASE⟩ ∧
    (some (Ver.mk [.num 1, .num 18, .num 2] .RELEASE) ≠
      some (Ver.mk [.str "1", .str "18", .str "2"] .RELEASE)) := by
  constructor
  · decide
  · decide

/-- C8 (amended): deserialization inverts serialization for representative
instances of the core types whose values are in canonical form — `Ver` with
numeric tokens stored as ints (string digit tokens instead canonicalize to
ints, breaking the round-trip), all maturities, all `Type` and `Side`
members (including the `None`-encoded defaults MOD and BOTH), release,
suffixed and snapshot `McVer`s, the `McVerMatch` forms, and the
dataclass/collection codecs at a `Dep` with its optional field absent,
one with it present, the empty list and a singleton list. -/
theorem c8_roundtrip_canonical_representatives :
    Ver.deserialize (Ver.serialize ⟨[.num 1, .num 18, .num 2], .RELEASE⟩) =
      some ⟨[.num 1, .num 18, .num 2], .RELEASE⟩ ∧
    Ver.deserialize (Ver.serialize ⟨[.num 2, .str "x"], .BETA⟩) =
      some ⟨[.num 2, .str "x"], .BETA⟩ ∧
    Ver.deserialize (Ver.serialize ⟨[.num 0], .ALPHA⟩) = some ⟨[.num 0], .ALPHA⟩ ∧
    (∀ t : VerType, VerType.deserialize (VerType.serialize t) = some t) ∧
    (∀ m : MType, MType.deserialize (MType.serialize m) = some m) ∧
    (∀ s : Side, Side.deserialize (Side.serialize s) = some s) ∧
    McVer.deserialize (McVer.serialize ⟨1, 18, 0, "", ""⟩) = some ⟨1, 18, 0, "", ""⟩ ∧
    McVer.deserialize (McVer.serialize ⟨1, 18, 2, "", ""⟩) = some ⟨1, 18, 2, "", ""⟩ ∧
    McVer.deserialize (McVer.serialize ⟨1, 18, 2, "pre1", ""⟩) =
      some ⟨1, 18, 2, "pre1", ""⟩ ∧
    McVer.deserialize (McVer.serialize ⟨1, 18, 2, "pre1", "22w03a"⟩) =
      some ⟨1, 18, 2, "pre1", "22w03a"⟩ ∧
    McVerMatch.deserialize (McVerMatch.serialize McVerMatch.ANY) = some McVerMatch.ANY ∧
    McVerMatch.deserialize (McVerMatch.serialize ⟨some ⟨1, 18, 0, "", ""⟩, "^"⟩) =
      some ⟨some ⟨1, 18, 0, "", ""⟩, "^"⟩ ∧
    McVerMatch.deserialize (McVerMatch.serialize ⟨some ⟨1, 18, 2, "", ""⟩, ""⟩) =
      some ⟨some ⟨1, 18, 2, "", ""⟩, ""⟩ ∧
    Dep.parseJson (Dep.serializeJson ⟨true, "x", none⟩) = some ⟨true, "x", none⟩ ∧
    Dep.parseJson (Dep.serializeJson ⟨false, "y", some "v1"⟩) =
      some ⟨false, "y", some "v1"⟩ ∧
    depListParse (depListSerialize []) = some [] ∧
    depListParse (depListSerialize [⟨true, "x", none⟩]) = some [⟨true, "x", none⟩] := by
  refine ⟨by decide, by decide, by decide, fun t => by cases t <;> rfl,
    fun m => by cases m <;> rfl, fun s => by cases s <;> rfl,
    by decide, by decide, by decide, by decide, by decide, by decide, by decide,
    by decide, by decide, by decide, by decide⟩

theorem pyInsertDesc_ne_nil (lt : α → α → Bool) (x : α) (l : List α) :
    pyInsertDesc lt x l ≠ [] := by
  cases l with
  | nil => simp [pyInsertDesc]
  | cons y ys => by_cases h : lt x y = true <;> simp [pyInsertDesc, h]

theorem pyInsertDesc_mem (lt : α → α → Bool) (x : α) (l : List α) (z : α) :
    z ∈ pyInsertDesc lt x l ↔ z = x ∨ z ∈ l := by
  induction l with
  | nil => simp [pyInsertDesc]
  | cons y ys ih =>
    by_cases h : lt x y = true
    · simp [pyInsertDesc, h, ih]
      tauto
    · simp [pyInsertDesc, h]

theorem pySortDesc_mem (lt : α → α → Bool) (l : List α) (z : α) :
    z ∈ pySortDesc lt l ↔ z ∈ l := by
  induction l with
  | nil => simp [pySortDesc]
  | cons x xs ih => simp [pySortDesc, pyInsertDesc_mem, ih]

theorem pySortDesc_head_pub_max :
    ∀ (l : List ModVer) (h1 : ModVer) (t1 : List ModVer),
      pySortDesc pubLt l = h1 :: t1 → ∀ y ∈ l, y.published ≤ h1.published := by
  intro l
  induction l with
  | nil => intro h1 t1 hs; exact absurd hs (by simp [pySortDesc])
  | cons x xs ih =>
    intro h1 t1 hs y hy
    rw [show pySortDesc pubLt (x :: xs) = pyInsertDesc pubLt x (pySortDesc pubLt xs)
      from rfl] at hs
    cases hsx : pySortDesc pubLt xs with
    | nil =>
      rw [hsx] at hs
      have hx : h1 = x := by
        simpa [pyInsertDesc] using congrArg List.head? hs.symm
      rcases List.mem_cons.mp hy with rfl | hmem
      · exact hx ▸ le_refl _
      · exact absurd ((pySortDesc_mem pubLt xs y).mpr hmem) (by simp [hsx])
    | cons h0 t0 =>
      rw [hsx] at hs
      have ihh := ih h0 t0 hsx
      by_cases hlt : pubLt x h0 = true
      · have hh : h1 = h0 := by
          have := congrArg List.head? hs
          simpa [pyInsertDesc, hlt] using this.symm
        subst hh
        rcases List.mem_cons.mp hy with rfl | hmem
        · exact le_of_lt (by simpa [pubLt] using hlt)
        · exact ihh y hmem
      · have hh : h1 = x := by
          have := congrArg List.head? hs
          simpa [pyInsertDesc, hlt] using this.symm
        subst hh
        rcases List.mem_cons.mp hy with rfl | hmem
        · exact le_refl _
        · exact le_trans (ihh y hmem) (by simpa [pubLt, Nat.not_lt] using hlt)

/-- C4 counterexample: the claim says a warning is emitted iff the globally
highest published `Ver` (ignoring game-version matching) exceeds the
selected one.  Sample mod `info12` publishes `ver2` — globally the highest
version (and the latest published) but for another game version — while the
match selects `ver1`; the code emits no warning, because `find_version`
compares publish stamps within the *matched* set only. -/
theorem c4_no_warning_despite_globally_newer :
    ModInfo.get_latest_version info12 match182 = some (some ver1) ∧
    ver2 ∈ info12.versions ∧
    Ver.ltT ver1.version ver2.version = true ∧
    ver1.published < ver2.published ∧
    find_version_warn info12 match182 = some false := by
  refine ⟨by decide, by decide, by decide, by decide, by decide⟩

/-- C4 (amended): when the match accepts at least one version, `find_version`
warns iff some *matched* version (primary or fallback — the same set the
selection was made from, not the global version list) has a strictly later
publish stamp than the selected version; in particular acceptance via
fallback alone never produces a warning. -/
theorem c4_warn_iff_newer_matched (info : ModInfo) (mvm : ModVerMatch)
    (sel : ModVer) (rest : List ModVer)
    (h : info.get_versions mvm = some (sel :: rest)) :
    (find_version_warn info mvm = some true ↔
      ∃ v, v ∈ sel :: rest ∧ sel.published < v.published) := by
  cases hs : pySortDesc pubLt (sel :: rest) with
  | nil => exact absurd hs (by simpa [pySortDesc] using pyInsertDesc_ne_nil pubLt sel (pySortDesc pubLt rest))
  | cons first t1 =>
    have hmax := pySortDesc_head_pub_max (sel :: rest) first t1 hs
    have hfmem : first ∈ sel :: rest := by
      have : first ∈ pySortDesc pubLt (sel :: rest) := by simp [hs]
      exact (pySortDesc_mem pubLt (sel :: rest) first).mp this
    have hselle : sel.published ≤ first.published := hmax sel (List.mem_cons_self sel rest)
    simp only [find_version_warn, h, hs, List.head?, Option.some.injEq]
    constructor
    · intro hne
      have hne' : sel.published ≠ first.published := by simpa using hne
      exact ⟨first, hfmem, lt_of_le_of_ne hselle hne'⟩
    · rintro ⟨v, hv, hlt⟩
      have : sel.published < first.published := lt_of_lt_of_le hlt (hmax v hv)
      simpa using Nat.ne_of_lt this

/-- C4 witness: the amended warning rule at a sample mod where a matched,
older-versioned release was published later than the selected one. -/
theorem c4_warn_iff_newer_matched_witness :
    (find_version_warn info13 match182 = some true ↔
      ∃ v, v ∈ ver1 :: [ver3] ∧ ver1.published < v.published) :=
  c4_warn_iff_newer_matched info13 match182 ver1 [ver3] (by decide)

end Mcm
